import Mathlib

/-!
Verification development for the Polymarket ingestion pipeline
(`src/websocket_client.py`, `src/clickhouse_writer.py`, `src/ingestion.py`,
`src/config.py`, `src/polymarket_rest.py`).

The dynamic Python values flowing through the pipeline are modelled by `PyVal`
(JSON-like values plus `datetime`, with Python `int`/`float` merged into a
single exact rational number — no code path here distinguishes them).
Dictionaries are association lists in insertion order, matching Python `dict`
semantics.  Timestamps are rationals counting seconds since the Unix epoch in
UTC (the pipeline constructs only UTC datetimes; the naive/aware distinction
is not observable in the modelled code paths).
-/

namespace PM

/-- Model of the Python values handled by the pipeline: JSON payload values
(`orjson.loads` output), plus `datetime` objects produced during
normalisation.  Python `None` is `PyVal.none`. -/
inductive PyVal : Type where
  | none : PyVal
  | pbool : Bool → PyVal
  | pnum : ℚ → PyVal
  | pstr : String → PyVal
  | plist : List PyVal → PyVal
  | pdict : List (String × PyVal) → PyVal
  | pdatetime : ℚ → PyVal

/-- Python truthiness (`bool(x)`): `None`, `0`, `""`, `[]`, `{}` are falsy. -/
def truthy : PyVal → Bool
  | .none => false
  | .pbool b => b
  | .pnum q => decide (q ≠ 0)
  | .pstr s => decide (s ≠ "")
  | .plist xs => !xs.isEmpty
  | .pdict kvs => !kvs.isEmpty
  | .pdatetime _ => true

/-- `d.get(k)` on a dict: `some v` when the key is present, `Option.none`
when absent or when the receiver is not a dict. -/
def PyVal.get : PyVal → String → Option PyVal
  | .pdict kvs, k => kvs.lookup k
  | _, _ => Option.none

/-- `d.get(k, default)`: the default is used only when the key is absent. -/
def PyVal.getD (o : PyVal) (k : String) (d : PyVal) : PyVal :=
  (o.get k).getD d

/-- `d.get(k)` with Python's implicit `None` default. -/
def PyVal.getN (o : PyVal) (k : String) : PyVal :=
  o.getD k .none

/-- Python `a or b`: `a` when truthy, else `b`. -/
def pyOr (a b : PyVal) : PyVal :=
  if truthy a then a else b

/-- `x is None` for the values read out of level dicts. -/
def PyVal.isNone : PyVal → Bool
  | .none => true
  | _ => false

/-- Value of a decimal digit run (used for `int(s)` on an `isdigit` string). -/
def digitsToNat (cs : List Char) : ℕ :=
  cs.foldl (fun n c => 10 * n + (c.toNat - 48)) 0

/-- Python `str.isdigit` restricted to ASCII digits (the feed sends ASCII). -/
def pyIsdigit (s : String) : Bool :=
  !s.isEmpty && s.toList.all Char.isDigit

/-- Core of Python `float(s)` on unsigned decimal literals: `"10"`, `"0.42"`,
`"5."`, `".5"`.  (Exponents, infinities and surrounding whitespace never occur
in this feed and are not modelled.) -/
def parseDecimalCore (cs : List Char) : Option ℚ :=
  let ip := cs.takeWhile Char.isDigit
  let rest := cs.dropWhile Char.isDigit
  match rest with
  | [] => if ip.isEmpty then Option.none else some (digitsToNat ip : ℚ)
  | '.' :: rest2 =>
      let fp := rest2.takeWhile Char.isDigit
      let rest3 := rest2.dropWhile Char.isDigit
      if rest3.isEmpty && (!ip.isEmpty || !fp.isEmpty) then
        some ((digitsToNat ip : ℚ) + (digitsToNat fp : ℚ) / ((10 : ℚ) ^ fp.length))
      else Option.none
  | _ => Option.none

/-- Python `float(s)` on a string, with optional sign. -/
def parseDecimal (s : String) : Option ℚ :=
  match s.toList with
  | '+' :: cs => parseDecimalCore cs
  | '-' :: cs => (parseDecimalCore cs).map Neg.neg
  | cs => parseDecimalCore cs

/-- Python `float(x)` on a `PyVal`; raises (models the `ValueError` /
`TypeError`) on non-numeric strings and non-numeric values. -/
def pyFloat : PyVal → Except String ℚ
  | .pnum q => .ok q
  | .pbool b => .ok (if b then 1 else 0)
  | .pstr s =>
      match parseDecimal s with
      | some q => .ok q
      | Option.none => .error ("ValueError: could not convert string to float: " ++ s)
  | _ => .error "TypeError: float() argument must be a string or a real number"

/-! ### `datetime.fromisoformat` (CPython 3.10 grammar)

`YYYY-MM-DD[<sep>HH[:MM[:SS[.fff[fff]]]][±HH:MM[:SS[.ffffff]]]]`, date
validated against the calendar (year 1–9999).  The result is seconds since
the Unix epoch, with the parsed UTC offset subtracted. -/

def isLeap (y : ℤ) : Bool :=
  (y % 4 == 0 && y % 100 != 0) || y % 400 == 0

def daysInMonth (y : ℤ) (m : ℕ) : ℕ :=
  if m = 2 then (if isLeap y then 29 else 28)
  else if m = 4 ∨ m = 6 ∨ m = 9 ∨ m = 11 then 30
  else 31

/-- Days from 1970-01-01 to year `y`, month `m`, day `d` (proleptic
Gregorian; years here are always ≥ 1 so all divisions are on non-negative
numbers). -/
def daysFromCivil (y : ℤ) (m d : ℕ) : ℤ :=
  let y' : ℤ := if m ≤ 2 then y - 1 else y
  let era : ℤ := y' / 400
  let yoe : ℤ := y' - era * 400
  let mp : ℤ := ((m : ℤ) + 9) % 12
  let doy : ℤ := (153 * mp + 2) / 5 + (d : ℤ) - 1
  let doe : ℤ := yoe * 365 + yoe / 4 - yoe / 100 + doy
  era * 146097 + doe - 719468

/-- Two decimal digits. -/
def digit2 : List Char → Option (ℕ × List Char)
  | a :: b :: rest =>
      if a.isDigit && b.isDigit then some (digitsToNat [a, b], rest) else Option.none
  | _ => Option.none

/-- Fractional seconds: exactly 3 or 6 digits after the dot. -/
def parseFrac : List Char → Option ℚ
  | [a, b, c] =>
      if [a, b, c].all Char.isDigit then some ((digitsToNat [a, b, c] : ℚ) / 1000)
      else Option.none
  | [a, b, c, d, e, f] =>
      if [a, b, c, d, e, f].all Char.isDigit then
        some ((digitsToNat [a, b, c, d, e, f] : ℚ) / 1000000)
      else Option.none
  | _ => Option.none

/-- `SS[.frac]` tail of a time or offset string, as seconds. -/
def parseSeconds (cs : List Char) : Option ℚ := do
  let (se, rest) ← digit2 cs
  if se ≥ 60 then failure
  match rest with
  | [] => some (se : ℚ)
  | '.' :: fr => do
      let q ← parseFrac fr
      some ((se : ℚ) + q)
  | _ => failure

/-- `HH[:MM[:SS[.frac]]]` as seconds within the day. -/
def parseTimePart (cs : List Char) : Option ℚ := do
  let (h, rest) ← digit2 cs
  if h ≥ 24 then failure
  match rest with
  | [] => some ((h : ℚ) * 3600)
  | ':' :: rest1 => do
      let (mi, rest2) ← digit2 rest1
      if mi ≥ 60 then failure
      (match rest2 with
       | [] => some ((h : ℚ) * 3600 + (mi : ℚ) * 60)
       | ':' :: rest3 => do
          let q ← parseSeconds rest3
          some ((h : ℚ) * 3600 + (mi : ℚ) * 60 + q)
       | _ => failure)
  | _ => failure

/-- `HH:MM[:SS[.ffffff]]` UTC-offset magnitude, in seconds (the 6-digit
fraction is the only one CPython accepts in an offset; `parseFrac` also
admits 3 digits, a harmless widening never reached by this pipeline). -/
def parseOffsetPart (cs : List Char) : Option ℚ := do
  let (h, rest) ← digit2 cs
  if h ≥ 24 then failure
  match rest with
  | ':' :: rest1 => do
      let (mi, rest2) ← digit2 rest1
      if mi ≥ 60 then failure
      (match rest2 with
       | [] => some ((h : ℚ) * 3600 + (mi : ℚ) * 60)
       | ':' :: rest3 => do
          let q ← parseSeconds rest3
          some ((h : ℚ) * 3600 + (mi : ℚ) * 60 + q)
       | _ => failure)
  | _ => failure

/-- Split the time string at the first `+`/`-` (the sign starting the UTC
offset); time digits, colons and the fraction dot contain no signs. -/
def splitAtSign (cs : List Char) : List Char × Option (Bool × List Char) :=
  match cs with
  | [] => ([], Option.none)
  | '+' :: rest => ([], some (true, rest))
  | '-' :: rest => ([], some (false, rest))
  | c :: rest =>
      let (t, off) := splitAtSign rest
      (c :: t, off)

def fromisoformat (s : String) : Except String ℚ :=
  let err : Except String ℚ := .error ("ValueError: Invalid isoformat string: " ++ s)
  match s.toList with
  | y1 :: y2 :: y3 :: y4 :: '-' :: m1 :: m2 :: '-' :: d1 :: d2 :: rest =>
      if [y1, y2, y3, y4, m1, m2, d1, d2].all Char.isDigit then
        let y : ℕ := digitsToNat [y1, y2, y3, y4]
        let mo : ℕ := digitsToNat [m1, m2]
        let d : ℕ := digitsToNat [d1, d2]
        if 1 ≤ y ∧ y ≤ 9999 ∧ 1 ≤ mo ∧ mo ≤ 12 ∧ 1 ≤ d ∧ d ≤ daysInMonth (y : ℤ) mo then
          let daySecs : ℚ := (daysFromCivil (y : ℤ) mo d : ℚ) * 86400
          match rest with
          | [] => .ok daySecs
          | _sep :: tcs =>
              let (tpart, opart) := splitAtSign tcs
              match parseTimePart tpart with
              | Option.none => err
              | some tsecs =>
                  match opart with
                  | Option.none => .ok (daySecs + tsecs)
                  | some (pos, ocs) =>
                      match parseOffsetPart ocs with
                      | Option.none => err
                      | some osecs =>
                          .ok (daySecs + tsecs - (if pos then osecs else -osecs))
        else err
      else err
  | _ => err

/-! ### Protocol normaliser (`PolymarketWebSocket`, `websocket_client.py`)

The handlers are modelled with the callbacks wired as in
`PolymarketIngestion.start`: `on_trade` and `on_book` set, `on_price_change`
absent (so `_handle_price_change` returns immediately).  `datetime.now` —
the frame's local receipt time — is passed in as the parameter `now`. -/

/-- Stands in for Python's decimal rendering of `ts.timestamp()` in the
`trade_id` fallback; the exact digits are never inspected by the pipeline,
only stored. -/
def tsRepr (q : ℚ) : String := toString q

/-- `ts_str.replace('Z', '+00:00')`: replace every occurrence of the
single-character pattern. -/
def replaceZ (s : String) : String :=
  String.mk (s.toList.foldr
    (fun c acc => if c = 'Z' then '+' :: '0' :: '0' :: ':' :: '0' :: '0' :: acc
                  else c :: acc) [])

/-- `PolymarketWebSocket._handle_trade`: timestamp parsing and the canonical
trade dict.  Errors model the exceptions (`ValueError` from `fromisoformat`
or `float`) that propagate out of the handler. -/
def handle_trade (e : PyVal) (now : ℚ) : Except String PyVal := do
  let tsv := pyOr (e.getN "timestamp") (e.getN "ts")
  let ts : ℚ ←
    if truthy tsv then
      match tsv with
      | .pnum n => pure (n / 1000)
      | .pstr s =>
          if pyIsdigit s then pure ((digitsToNat s.toList : ℚ) / 1000)
          else fromisoformat (replaceZ s)
      | _ => pure now
    else pure now
  let price ← pyFloat (e.getD "price" (.pnum 0))
  let size ← pyFloat (e.getD "size" (.pnum 0))
  pure (.pdict [
    ("ts", .pdatetime ts),
    ("market_id", e.getD "market" (e.getD "condition_id" (.pstr ""))),
    ("condition_id", e.getD "condition_id" (e.getD "market" (.pstr ""))),
    ("token_id", e.getD "asset_id" (e.getD "asset" (.pstr ""))),
    ("side", e.getD "side" (.pstr "UNKNOWN")),
    ("price", .pnum price),
    ("size", .pnum size),
    ("outcome", e.getD "outcome" (.pstr "")),
    ("outcome_index", e.getD "outcome_index" (.pnum 0)),
    ("trade_id", e.getD "id" (e.getD "trade_id" (.pstr (tsRepr ts)))),
    ("maker_address", e.getN "maker"),
    ("taker_address", e.getD "taker" (.pstr "")),
    ("source", .pstr "websocket")])

/-- A parsed `{'price': …, 'size': …}` entry of `_handle_book`. -/
structure BookEntry where
  price : ℚ
  size : ℚ

/-- Python iteration over the value bound by `event.get('bids', [])`:
lists iterate their elements, strings their characters, dicts their keys;
other values raise `TypeError`. -/
def pyIter : PyVal → Except String (List PyVal)
  | .plist xs => .ok xs
  | .pstr s => .ok (s.toList.map fun c => .pstr (String.mk [c]))
  | .pdict kvs => .ok (kvs.map fun kv => .pstr kv.1)
  | _ => .error "TypeError: object is not iterable"

/-- Insert into an already-sorted list, before the first element the
comparison accepts (ties keep the inserted — originally later collected —
element first in its insertion pass, giving overall stability below). -/
def insertBy {α : Type} (le : α → α → Bool) (x : α) : List α → List α
  | [] => [x]
  | y :: ys => if le x y then x :: y :: ys else y :: insertBy le x ys

/-- Stable sort by a boolean comparison, modelling Python's stable
`list.sort(key=…)`: elements with equal keys keep their original order. -/
def sortBy {α : Type} (le : α → α → Bool) : List α → List α
  | [] => []
  | x :: xs => insertBy le x (sortBy le xs)

/-- One iteration of the bid/ask parsing loop in `_handle_book`:
`none` models `continue` / a side missing price or size. -/
def parseBookEntry (b : PyVal) : Except String (Option BookEntry) :=
  match b with
  | .pdict _ => do
      let p ← if truthy (b.getN "price")
              then (pyFloat (b.getD "price" (.pnum 0))).map some
              else pure Option.none
      let s ← if truthy (b.getN "size")
              then (pyFloat (b.getD "size" (.pnum 0))).map some
              else pure Option.none
      (match p, s with
       | some p, some s => pure (some ⟨p, s⟩)
       | _, _ => pure Option.none)
  | .plist (x0 :: x1 :: _) => do
      let p ← if truthy x0 then (pyFloat x0).map some else pure Option.none
      let s ← if truthy x1 then (pyFloat x1).map some else pure Option.none
      (match p, s with
       | some p, some s => pure (some ⟨p, s⟩)
       | _, _ => pure Option.none)
  | _ => pure Option.none

/-- The whole bid (or ask) parsing loop, preserving order. -/
def parseBookSide (entries : List PyVal) : Except String (List BookEntry) :=
  entries.foldlM (fun acc b => do
    let r ← parseBookEntry b
    pure (match r with
          | some be => acc ++ [be]
          | Option.none => acc)) []

/-- `None`-able price/size slot of a level dict. -/
def optNum : Option ℚ → PyVal
  | some q => .pnum q
  | Option.none => .none

/-- One level dict built by `_handle_book` for rank `lvl` (1-based). -/
def levelDict (e : PyVal) (now : ℚ) (bids asks : List BookEntry) (lvl : ℕ) : PyVal :=
  .pdict [
    ("ts", .pdatetime now),
    ("market_id", e.getD "market" (.pstr "")),
    ("condition_id", e.getD "market" (.pstr "")),
    ("token_id", e.getD "asset_id" (.pstr "")),
    ("level", .pnum (lvl : ℚ)),
    ("bid_px", optNum ((bids.get? (lvl - 1)).map BookEntry.price)),
    ("bid_sz", optNum ((bids.get? (lvl - 1)).map BookEntry.size)),
    ("ask_px", optNum ((asks.get? (lvl - 1)).map BookEntry.price)),
    ("ask_sz", optNum ((asks.get? (lvl - 1)).map BookEntry.size)),
    ("source", .pstr "websocket")]

/-- The BBO dict built by `_handle_book`. -/
def bboDict (e : PyVal) (now : ℚ) (bids asks : List BookEntry) : PyVal :=
  .pdict [
    ("ts", .pdatetime now),
    ("market_id", e.getD "market" (.pstr "")),
    ("condition_id", e.getD "market" (.pstr "")),
    ("token_id", e.getD "asset_id" (.pstr "")),
    ("bid_px", optNum ((bids.get? 0).map BookEntry.price)),
    ("bid_sz", optNum ((bids.get? 0).map BookEntry.size)),
    ("ask_px", optNum ((asks.get? 0).map BookEntry.price)),
    ("ask_sz", optNum ((asks.get? 0).map BookEntry.size)),
    ("source", .pstr "websocket")]

/-- `PolymarketWebSocket._handle_book`: parse both sides, sort bids
descending and asks ascending by price (stable, like Python `list.sort`),
and build the BBO dict plus one level dict for each rank 1–3. -/
def handle_book (e : PyVal) (now : ℚ) : Except String (PyVal × List PyVal) := do
  let rawBids ← pyIter (e.getD "bids" (.plist []))
  let rawAsks ← pyIter (e.getD "asks" (.plist []))
  let parsedBids0 ← parseBookSide rawBids
  let parsedAsks0 ← parseBookSide rawAsks
  let bids := sortBy (fun a b => decide (b.price ≤ a.price)) parsedBids0
  let asks := sortBy (fun a b => decide (a.price ≤ b.price)) parsedAsks0
  let levels := [1, 2, 3].map (levelDict e now bids asks)
  pure (bboDict e now bids asks, levels)

/-- A record batch handed to a callback: one trade dict, or one BBO dict
with its list of level dicts. -/
inductive Out where
  | trade : PyVal → Out
  | book : PyVal → List PyVal → Out

/-- `PolymarketWebSocket._handle_event`: dispatch on the explicit type tag
`event.get('event_type') or event.get('type')`.  `price_change` events are
dropped because `on_price_change` is not wired; `subscribed`/`connected`
and unknown tags emit nothing. -/
def handle_event (e : PyVal) (now : ℚ) : Except String (List Out) :=
  match e with
  | .pdict _ =>
      (match pyOr (e.getN "event_type") (e.getN "type") with
       | .pstr t =>
          if t = "trade" ∨ t = "last_trade_price" then do
            let td ← handle_trade e now
            pure [Out.trade td]
          else if t = "book" then do
            let (bbo, levels) ← handle_book e now
            pure [Out.book bbo levels]
          else pure []
       | _ => pure [])
  | _ => .error "AttributeError: object has no attribute get"

/-- `PolymarketWebSocket._handle_message` over one frame: a single event or
an array of events; an exception aborts the rest of the frame but keeps the
records already emitted. -/
def handle_message_list (events : List PyVal) (now : ℚ) : List Out × Option String :=
  match events with
  | [] => ([], Option.none)
  | ev :: rest =>
      match handle_event ev now with
      | .error err => ([], some err)
      | .ok os =>
          let (os', e') := handle_message_list rest now
          (os ++ os', e')

def handle_message (data : PyVal) (now : ℚ) : List Out × Option String :=
  match data with
  | .plist events => handle_message_list events now
  | e =>
      match handle_event e now with
      | .ok os => (os, Option.none)
      | .error err => ([], some err)

/-- The records a frame contributes under `_listen`, which catches any
exception from `_handle_message` and carries on. -/
def listenOutputs (data : PyVal) (now : ℚ) : List Out :=
  (handle_message data now).1

/-! ### Buffer coordinator (`ClickHouseWriter`, `clickhouse_writer.py`)

Buffers are plain lists; the `asyncio.Lock`-guarded sections are the atomic
steps of this sequential model.  The ClickHouse client is reduced to a
single flag `sinkOk` per flush: `insert` either succeeds or raises. -/

/-- One market metadata row as assembled by
`PolymarketRestClient.fetch_active_markets`, restricted to the fields the
ingestion orchestrator reads; `computed_category` is `Option.none` until
`_sync_markets` sets the key. -/
structure Market where
  market_id : String
  condition_id : String
  question : String
  slug : String
  category : String
  clob_token_ids : List String
  computed_category : Option String := Option.none

structure WriterState where
  trade_buffer : List PyVal := []
  bbo_buffer : List PyVal := []
  orderbook_levels_buffer : List PyVal := []
  market_buffer : List Market := []

def buffer_trade (s : WriterState) (t : PyVal) : WriterState :=
  { s with trade_buffer := s.trade_buffer ++ [t] }

def buffer_orderbook_levels (s : WriterState) (ls : List PyVal) : WriterState :=
  { s with orderbook_levels_buffer := s.orderbook_levels_buffer ++ ls }

def buffer_market (s : WriterState) (m : Market) : WriterState :=
  { s with market_buffer := s.market_buffer ++ [m] }

/-- Python subscript `t[k]`: `KeyError` on a missing key, `TypeError` off a
dict. -/
def item (t : PyVal) (k : String) : Except String PyVal :=
  match t with
  | .pdict kvs =>
      match kvs.lookup k with
      | some v => .ok v
      | Option.none => .error ("KeyError: " ++ k)
  | _ => .error "TypeError: object is not subscriptable"

/-- The row `flush_trades` builds for one buffered trade dict. -/
def tradeRow (t : PyVal) : Except String (List PyVal) := do
  let ets ← item t "exchange_ts"
  let lts ← item t "local_ts"
  let mid ← item t "market_id"
  let cid ← item t "condition_id"
  let tok ← item t "token_id"
  let side ← item t "side"
  let price ← item t "price"
  let size ← item t "size"
  let outcome ← item t "outcome"
  let oidx ← item t "outcome_index"
  let tid ← item t "trade_id"
  pure [ets, lts, mid, cid, tok, side, price, size, outcome, oidx, tid,
        t.getD "maker_address" (.pstr ""), t.getD "taker_address" (.pstr ""),
        t.getD "source" (.pstr "websocket")]

/-- Outcome of one flush call: the value it returns and the rows the sink
write durably accepted (empty when the insert raised). -/
structure FlushOutcome where
  ret : ℕ
  sunk : List (List PyVal)

/-- `ClickHouseWriter.flush_trades`.  The buffer is swapped out before the
row build; a missing key there raises out of the whole call (the swapped
batch is already gone), while an insert failure is caught and returns 0. -/
def flush_trades (sinkOk : Bool) (s : WriterState) :
    Except String FlushOutcome × WriterState :=
  if s.trade_buffer.isEmpty then (.ok ⟨0, []⟩, s)
  else
    let trades := s.trade_buffer
    let s' := { s with trade_buffer := [] }
    match trades.mapM tradeRow with
    | .error e => (.error e, s')
    | .ok rows =>
        if sinkOk then (.ok ⟨trades.length, rows⟩, s')
        else (.ok ⟨0, []⟩, s')

/-- The all-`None` test `flush_orderbook_levels` applies before building a
row. -/
def allNull (l : PyVal) : Bool :=
  (l.getN "bid_px").isNone && (l.getN "bid_sz").isNone &&
    (l.getN "ask_px").isNone && (l.getN "ask_sz").isNone

/-- The loop body of `flush_orderbook_levels` for one buffered level dict;
`Option.none` models the `continue` for an all-`None` level. -/
def levelRow (l : PyVal) : Except String (Option (List PyVal)) :=
  match l with
  | .pdict _ =>
      if allNull l then pure Option.none
      else do
        let ets ← item l "exchange_ts"
        let lts ← item l "local_ts"
        let mid ← item l "market_id"
        let cid ← item l "condition_id"
        let tok ← item l "token_id"
        let lvl ← item l "level"
        pure (some [ets, lts, mid, cid, tok, lvl,
          l.getN "bid_px", l.getN "bid_sz", l.getN "ask_px", l.getN "ask_sz",
          l.getD "source" (.pstr "websocket")])
  | _ => .error "AttributeError: object has no attribute get"

/-- `ClickHouseWriter.flush_orderbook_levels`: drain the buffer, skip
all-`None` levels, submit the rest; note the return value is the length of
the drained list, not of the submitted rows. -/
def flush_orderbook_levels (sinkOk : Bool) (s : WriterState) :
    Except String FlushOutcome × WriterState :=
  if s.orderbook_levels_buffer.isEmpty then (.ok ⟨0, []⟩, s)
  else
    let levels := s.orderbook_levels_buffer
    let s' := { s with orderbook_levels_buffer := [] }
    match levels.mapM levelRow with
    | .error e => (.error e, s')
    | .ok rows =>
        if sinkOk then (.ok ⟨levels.length, rows.reduceOption⟩, s')
        else (.ok ⟨0, []⟩, s')

/-- `ClickHouseWriter.flush_markets` (market rows are fully structured, so
the row build cannot raise; only the insert can fail). -/
def flush_markets (sinkOk : Bool) (s : WriterState) : ℕ × WriterState :=
  if s.market_buffer.isEmpty then (0, s)
  else
    let markets := s.market_buffer
    let s' := { s with market_buffer := [] }
    if sinkOk then (markets.length, s') else (0, s')

/-! ### Flush-interleaving model for the trade buffer -/

/-- One producer/flusher step on the trade buffer. -/
inductive TradeOp where
  | add : PyVal → TradeOp
  | flush : TradeOp

def countAdds (ops : List TradeOp) : ℕ :=
  (ops.filter fun op => match op with | .add _ => true | .flush => false).length

/-- Run a sequence of adds and flushes against an always-healthy sink,
accumulating the flush return values; a row-build exception aborts the
run (it would escape `flush_trades`). -/
def runTradeOps : List TradeOp → WriterState → ℕ → Except String (ℕ × WriterState)
  | [], s, acc => .ok (acc, s)
  | .add t :: rest, s, acc => runTradeOps rest (buffer_trade s t) acc
  | .flush :: rest, s, acc =>
      match flush_trades true s with
      | (.ok o, s') => runTradeOps rest s' (acc + o.ret)
      | (.error e, _) => .error e

/-! ### Configuration (`config.py`) -/

structure Config where
  batch_size : ℕ := 1000
  flush_interval : ℚ := 1
  max_markets : ℕ := 1000000
  ws_tokens_per_connection : ℕ := 1000
  ws_subscribe_batch_size : ℕ := 200
  max_ws_connections : ℕ := 10

def get_config : Config := {}

/-! ### Token batching (`PolymarketIngestion._run_websocket`)

The loop `for i in range(0, total_tokens, batch_size)` with the hardcoded
`batch_size = 1000` chops `token_ids` into contiguous slices
`token_ids[i:i+1000]`, all subscribed over the single WebSocket
connection. -/

/-- Slicing loop with a structural fuel argument (any fuel at least the
list length yields the `range(0, total, 1000)` slicing; `subscribeBatches`
supplies `l.length`). -/
def subscribeBatchesAux : ℕ → List String → List (List String)
  | _, [] => []
  | 0, _ :: _ => []
  | fuel + 1, t :: rest =>
      ((t :: rest).take 1000) :: subscribeBatchesAux fuel ((t :: rest).drop 1000)

def subscribeBatches (l : List String) : List (List String) :=
  subscribeBatchesAux l.length l

/-! ### Reconnect backoff (`PolymarketWebSocket._connect_with_retry`)

`_reconnect_delay` starts at 1.0 and `_max_reconnect_delay` is 60.0.  Each
loop iteration — whether the connect attempt failed or a successful session
later dropped — sleeps the current delay and then doubles it, capped at 60;
a successful connect first resets the delay to 1.0. -/

/-- Run the retry loop over a list of attempt outcomes (`true` = the
connect succeeded before the session later ended), from stored delay `d`;
returns the sleeps performed and the final stored delay. -/
def runAttempts : List Bool → ℚ → List ℚ × ℚ
  | [], d => ([], d)
  | ok :: rest, d =>
      let d1 := if ok then 1 else d
      let d2 := min (d1 * 2) 60
      let (ds, df) := runAttempts rest d2
      (d1 :: ds, df)

/-! ### Metadata sync and enrichment (`PolymarketIngestion`, `ingestion.py`) -/

/-- Python `dict` assignment on a string-keyed association list: replace
the value in place (keeping the key's insertion position) when the key is
present, else append the new pair at the end. -/
def dictSet {α : Type} : List (String × α) → String → α → List (String × α)
  | [], k, v => [(k, v)]
  | (k', v') :: rest, k, v =>
      if k' = k then (k, v) :: rest else (k', v') :: dictSet rest k v

/-- The same assignment on a `PyVal` dict (used by `_enrich_market_info`). -/
def pdictSet (it : PyVal) (k : String) (v : PyVal) : PyVal :=
  match it with
  | .pdict kvs => .pdict (dictSet kvs k v)
  | o => o

/-- `in`-test `k in s` for a substring (Python `str.__contains__`). -/
def strContains (hay needle : String) : Bool :=
  hay.toList.tails.any (fun t => needle.toList.isPrefixOf t)

/-- The orchestrator's mutable state: `_markets` keyed by condition id and
the token→market resolution table `_token_to_market`. -/
structure IngestionState where
  markets : List (String × Market) := []
  token_to_market : List (String × String) := []

def sports_keywords : List String :=
  [" vs ", "League", "Cup", "Tournament", "Championship", "NBA", "NFL",
   "Premier League", "Champions League", "UFC", "F1", "Grand Prix"]

/-- The category computation inside `_sync_markets` for one market, given
the `COMPUTED_CATEGORIES` lookup loaded at startup. -/
def computedCategory (cats : List (String × String)) (m : Market) : String :=
  let c0 := (cats.lookup m.market_id).getD ""
  let c1 :=
    if c0 ≠ "" then c0
    else if m.category = "Sports" then "Sports"
    else if sports_keywords.any (fun k => strContains m.question k) then "Sports"
    else m.category
  if c1 = "" then "Other" else c1

/-- One iteration of the `for market in markets` loop in `_sync_markets`:
store the categorised market, upsert each of its tokens into the resolution
table, and buffer the market row. -/
def syncMarketStep (cats : List (String × String))
    (st : IngestionState × WriterState) (m : Market) :
    IngestionState × WriterState :=
  let m' := { m with computed_category := some (computedCategory cats m) }
  let ist := st.1
  let ist := { ist with markets := dictSet ist.markets m.condition_id m' }
  let ttm := m.clob_token_ids.foldl
    (fun d tok => dictSet d tok m.condition_id) ist.token_to_market
  let ist := { ist with token_to_market := ttm }
  (ist, buffer_market st.2 m')

/-- `PolymarketIngestion._sync_markets` on an already-fetched market list:
the per-market loop followed by `flush_markets`.  Returns the new state and
the flushed-market count. -/
def sync_markets (cats : List (String × String)) (fetched : List Market)
    (sinkOk : Bool) (ist : IngestionState) (w : WriterState) :
    IngestionState × WriterState × ℕ :=
  let (ist', w') := fetched.foldl (syncMarketStep cats) (ist, w)
  let (n, w'') := flush_markets sinkOk w'
  (ist', w'', n)

/-- `PolymarketIngestion._enrich_market_info`: fill `condition_id`,
`market_id` and `category` from the resolution table when the record has a
token id but no market id.  Reads the state, never writes it. -/
def enrich_market_info (ist : IngestionState) (it : PyVal) : PyVal :=
  if !truthy (it.getN "market_id") && truthy (it.getN "token_id") then
    match it.getN "token_id" with
    | .pstr tok =>
        (match ist.token_to_market.lookup tok with
         | some cond =>
            let md := ist.markets.lookup cond
            let it := pdictSet it "condition_id" (.pstr cond)
            let it := pdictSet it "market_id"
              (.pstr ((md.map Market.market_id).getD ""))
            (match md.bind Market.computed_category with
             | some cc => pdictSet it "category" (.pstr cc)
             | Option.none => it)
         | Option.none => it)
    | _ => it
  else it

/-- `PolymarketIngestion._on_trade`: enrich, then hand to the buffer.  The
ingestion state is threaded through to record that the handler leaves it
untouched. -/
def on_trade (ist : IngestionState) (w : WriterState) (t : PyVal) :
    IngestionState × WriterState :=
  (ist, buffer_trade w (enrich_market_info ist t))

/-- `PolymarketIngestion._on_book`: enrich each level, then buffer them all
(`buffer_orderbook_levels` is skipped only for an empty list). -/
def on_book (ist : IngestionState) (w : WriterState) (levels : List PyVal) :
    IngestionState × WriterState :=
  let ls := levels.map (enrich_market_info ist)
  (ist, if ls.isEmpty then w else buffer_orderbook_levels w ls)

/-! ### Concrete frames and records used by the claims -/

/-- The spec's scenario frame: price, size, side, no type tag, no books. -/
def c1Frame : PyVal :=
  .pdict [("price", .pstr "0.42"), ("size", .pstr "10"), ("side", .pstr "BUY")]

/-- The same frame with an explicit trade-type tag. -/
def c1Tagged : PyVal :=
  .pdict [("event_type", .pstr "trade"),
          ("price", .pstr "0.42"), ("size", .pstr "10"), ("side", .pstr "BUY")]

/-- The trade dict `_handle_trade` builds from `c1Tagged` at receipt time 0
(`trade_id` falls back to the rendered timestamp). -/
def c1Trade : PyVal :=
  .pdict [("ts", .pdatetime 0), ("market_id", .pstr ""),
          ("condition_id", .pstr ""), ("token_id", .pstr ""),
          ("side", .pstr "BUY"), ("price", .pnum (21 / 50)),
          ("size", .pnum 10), ("outcome", .pstr ""),
          ("outcome_index", .pnum 0), ("trade_id", .pstr "0"),
          ("maker_address", .none), ("taker_address", .pstr ""),
          ("source", .pstr "websocket")]

/-- A fully-tagged trade event with venue timestamp 1700000000123 ms. -/
def c2Event : PyVal :=
  .pdict [("event_type", .pstr "trade"), ("timestamp", .pnum 1700000000123),
          ("price", .pstr "0.5"), ("size", .pstr "2"), ("side", .pstr "SELL"),
          ("id", .pstr "T1"), ("asset_id", .pstr "TOK"), ("market", .pstr "COND")]

/-- The trade dict `_handle_trade` builds from `c2Event`. -/
def c2Trade : PyVal :=
  .pdict [("ts", .pdatetime (1700000000123 / 1000)), ("market_id", .pstr "COND"),
          ("condition_id", .pstr "COND"), ("token_id", .pstr "TOK"),
          ("side", .pstr "SELL"), ("price", .pnum (1 / 2)),
          ("size", .pnum 2), ("outcome", .pstr ""),
          ("outcome_index", .pnum 0), ("trade_id", .pstr "T1"),
          ("maker_address", .none), ("taker_address", .pstr ""),
          ("source", .pstr "websocket")]

/-- Book frame with two bids and no asks (spec's §8 scenario). -/
def c5Frame : PyVal :=
  .pdict [("event_type", .pstr "book"), ("market", .pstr "M"),
          ("asset_id", .pstr "TK"),
          ("bids", .plist [
            .pdict [("price", .pstr "0.60"), ("size", .pstr "5")],
            .pdict [("price", .pstr "0.55"), ("size", .pstr "3")]])]

def c5Level (lvl : ℚ) (px sz : PyVal) : PyVal :=
  .pdict [("ts", .pdatetime 0), ("market_id", .pstr "M"),
          ("condition_id", .pstr "M"), ("token_id", .pstr "TK"),
          ("level", .pnum lvl), ("bid_px", px), ("bid_sz", sz),
          ("ask_px", .none), ("ask_sz", .none), ("source", .pstr "websocket")]

def c5Bbo : PyVal :=
  .pdict [("ts", .pdatetime 0), ("market_id", .pstr "M"),
          ("condition_id", .pstr "M"), ("token_id", .pstr "TK"),
          ("bid_px", .pnum (3 / 5)), ("bid_sz", .pnum 5),
          ("ask_px", .none), ("ask_sz", .none), ("source", .pstr "websocket")]

/-- A buffered trade dict carrying every column `flush_trades` reads. -/
def wfTrade : PyVal :=
  .pdict [("exchange_ts", .pdatetime 1), ("local_ts", .pdatetime 2),
          ("market_id", .pstr "m"), ("condition_id", .pstr "c"),
          ("token_id", .pstr "k"), ("side", .pstr "BUY"),
          ("price", .pnum (1 / 2)), ("size", .pnum 3),
          ("outcome", .pstr "Yes"), ("outcome_index", .pnum 0),
          ("trade_id", .pstr "t1")]

/-- A buffered level dict carrying every column
`flush_orderbook_levels` reads, with bid data. -/
def wfLevel : PyVal :=
  .pdict [("exchange_ts", .pdatetime 1), ("local_ts", .pdatetime 2),
          ("market_id", .pstr "m"), ("condition_id", .pstr "c"),
          ("token_id", .pstr "k"), ("level", .pnum 1),
          ("bid_px", .pnum (3 / 5)), ("bid_sz", .pnum 5),
          ("ask_px", .none), ("ask_sz", .none)]

/-- A buffered level dict with nothing in any of the four price/size
slots. -/
def nullLevel : PyVal :=
  .pdict [("ts", .pdatetime 0), ("bid_px", .none), ("bid_sz", .none),
          ("ask_px", .none), ("ask_sz", .none)]

/-- Trade event with an arbitrary timestamp payload, used for the
timestamp-handling claims. -/
def c9Event (tsv : PyVal) : PyVal :=
  .pdict [("event_type", .pstr "trade"), ("timestamp", tsv),
          ("price", .pstr "0.5"), ("size", .pstr "2"), ("side", .pstr "SELL"),
          ("id", .pstr "T1")]

/-- The same event with no timestamp key at all. -/
def c9EventNoTs : PyVal :=
  .pdict [("event_type", .pstr "trade"),
          ("price", .pstr "0.5"), ("size", .pstr "2"), ("side", .pstr "SELL"),
          ("id", .pstr "T1")]

/-- The trade dict produced from `c9Event`/`c9EventNoTs` once the event
time `q` (in seconds) is fixed. -/
def c9Trade (q : ℚ) : PyVal :=
  .pdict [("ts", .pdatetime q), ("market_id", .pstr ""),
          ("condition_id", .pstr ""), ("token_id", .pstr ""),
          ("side", .pstr "SELL"), ("price", .pnum (1 / 2)),
          ("size", .pnum 2), ("outcome", .pstr ""),
          ("outcome_index", .pnum 0), ("trade_id", .pstr "T1"),
          ("maker_address", .none), ("taker_address", .pstr ""),
          ("source", .pstr "websocket")]

/-- Markets used in the resolution-table scenario: `mA` owns token `"a"`,
`mB` owns token `"b"`. -/
def mA : Market :=
  { market_id := "1", condition_id := "m1", question := "q1", slug := "s1",
    category := "Unknown", clob_token_ids := ["a"] }

def mB : Market :=
  { market_id := "2", condition_id := "m2", question := "q2", slug := "s2",
    category := "Unknown", clob_token_ids := ["b"] }

/-- State after a first sync that fetched only `mA`. -/
def istA : IngestionState := (sync_markets [] [mA] true {} {}).1

/-! ## Claims -/

/-- C1, counterexample: the spec's frame
`{"price":"0.42","size":"10","side":"BUY"}` — price, size and side present,
no bid/ask arrays, no type tag — produces no record at all: `_handle_event`
dispatches only on the explicit `event_type`/`type` tag, so the frame falls
through to the silent-discard branch instead of yielding one Trade. -/
theorem c1_untagged_trade_frame_discarded :
    handle_event c1Frame 0 = .ok [] := rfl

/-- C1 (amended): classification is by explicit type tag only.  A payload
with no `event_type` and no `type` key emits nothing, whatever other fields
it carries; the same frame with an explicit `"event_type":"trade"` tag
yields exactly one Trade with price 0.42, size 10, side BUY. -/
theorem c1_classification_by_tag_only (kvs : List (String × PyVal)) (now : ℚ)
    (h1 : kvs.lookup "event_type" = Option.none)
    (h2 : kvs.lookup "type" = Option.none) :
    handle_event (.pdict kvs) now = .ok [] ∧
    handle_event c1Tagged 0 = .ok [Out.trade c1Trade] := by
  constructor
  · simp [handle_event, pyOr, PyVal.getN, PyVal.getD, PyVal.get, h1, h2, truthy]
    rfl
  · with_unfolding_all rfl

/-- C1 witness: the amended theorem applied to the untagged spec frame. -/
theorem c1_classification_witness :
    handle_event (.pdict [("price", .pstr "0.42"), ("size", .pstr "10"),
      ("side", .pstr "BUY")]) 0 = .ok [] ∧
    handle_event c1Tagged 0 = .ok [Out.trade c1Trade] :=
  c1_classification_by_tag_only
    [("price", .pstr "0.42"), ("size", .pstr "10"), ("side", .pstr "BUY")] 0 rfl rfl

/-- C2: the normaliser's trade dict carries a single `ts` key and neither
`exchange_ts` nor `local_ts`, yet `flush_trades` subscripts both — so the
flush of any websocket trade batch raises `KeyError` (after the buffer was
already swapped out) instead of reading the two timestamps the claim, the
table schema and the flush code all expect. -/
theorem c2_trade_lacks_timestamp_columns :
    handle_trade c2Event 7 = .ok c2Trade ∧
    c2Trade.get "exchange_ts" = Option.none ∧
    c2Trade.get "local_ts" = Option.none ∧
    c2Trade.get "ts" = some (.pdatetime (1700000000123 / 1000)) ∧
    flush_trades true { trade_buffer := [c2Trade] } =
      (.error "KeyError: exchange_ts", {}) := by
  refine ⟨?_, rfl, rfl, ?_, ?_⟩ <;> with_unfolding_all rfl

/-! ### Batching lemmas (C3) -/

theorem batch_arith (n : ℕ) (hn : 1 ≤ n) :
    (n - 1000 + 999) / 1000 + 1 = (n + 999) / 1000 := by
  have h9 : n + 999 = n - 1 + 1000 := by omega
  rw [h9, Nat.add_div_right _ (by norm_num)]
  rcases Nat.le_total n 1000 with h | h
  · have h0 : n - 1000 + 999 = 999 := by omega
    rw [h0, Nat.div_eq_of_lt (by norm_num), Nat.div_eq_of_lt (by omega)]
  · have h1 : n - 1000 + 999 = n - 1 := by omega
    rw [h1]

theorem subscribeBatchesAux_length :
    ∀ (fuel : ℕ) (l : List String), l.length ≤ fuel →
      (subscribeBatchesAux fuel l).length = (l.length + 999) / 1000 := by
  intro fuel
  induction fuel with
  | zero =>
      intro l hl
      rw [List.length_eq_zero.mp (Nat.le_zero.mp hl)]
      simp [subscribeBatchesAux]
  | succ fuel ih =>
      intro l hl
      cases l with
      | nil => simp [subscribeBatchesAux]
      | cons t rest =>
          simp only [List.length_cons] at hl
          rw [subscribeBatchesAux, List.length_cons,
            ih _ (by simp only [List.length_drop, List.length_cons]; omega),
            List.length_drop, List.length_cons, batch_arith _ (by omega)]

theorem subscribeBatchesAux_flat :
    ∀ (fuel : ℕ) (l : List String), l.length ≤ fuel →
      (subscribeBatchesAux fuel l).flatten = l := by
  intro fuel
  induction fuel with
  | zero =>
      intro l hl
      rw [List.length_eq_zero.mp (Nat.le_zero.mp hl)]
      simp [subscribeBatchesAux]
  | succ fuel ih =>
      intro l hl
      cases l with
      | nil => simp [subscribeBatchesAux]
      | cons t rest =>
          simp only [List.length_cons] at hl
          rw [subscribeBatchesAux, List.flatten_cons,
            ih _ (by simp only [List.length_drop, List.length_cons]; omega)]
          exact List.take_append_drop 1000 (t :: rest)

theorem subscribeBatchesAux_sizes :
    ∀ (fuel : ℕ) (l : List String), ∀ c ∈ subscribeBatchesAux fuel l,
      c.length ≤ 1000 := by
  intro fuel
  induction fuel with
  | zero =>
      intro l c hc
      cases l <;> simp [subscribeBatchesAux] at hc
  | succ fuel ih =>
      intro l c hc
      cases l with
      | nil => simp [subscribeBatchesAux] at hc
      | cons t rest =>
          rw [subscribeBatchesAux] at hc
          rcases List.mem_cons.mp hc with h | h
          · subst h
            exact List.length_take_le 1000 (t :: rest)
          · exact ih _ c h

/-- C3, counterexample: 250,000 tokens are not sharded into at most
`max_ws_connections = 10` shards — the subscription loop slices them into
250 contiguous batches of 1000 on one connection. -/
theorem c3_batch_count_exceeds_connection_cap :
    (subscribeBatches (List.replicate 250000 "t")).length = 250 ∧
    get_config.max_ws_connections = 10 ∧
    ¬ (subscribeBatches (List.replicate 250000 "t")).length ≤
        get_config.max_ws_connections := by
  have h : (subscribeBatches (List.replicate 250000 "t")).length = 250 := by
    have := subscribeBatchesAux_length (List.replicate 250000 "t").length
      (List.replicate 250000 "t") le_rfl
    rw [subscribeBatches, this, List.length_replicate]
  refine ⟨h, rfl, ?_⟩
  rw [h]
  decide

/-- C3 (amended): the subscription loop partitions the token list into
contiguous slices of at most 1000 tokens each — every token lands in
exactly one slice, in order — but the slice count is `⌈N/1000⌉`, not
bounded by `max_ws_connections` (the config fields
`ws_tokens_per_connection` and `max_ws_connections` are never consulted):
250,000 tokens give 250 batches, all subscribed over a single
connection. -/
theorem c3_contiguous_batches_unbounded_count (l : List String) :
    (subscribeBatches l).flatten = l ∧
    (subscribeBatches l).length = (l.length + 999) / 1000 ∧
    ∀ c ∈ subscribeBatches l, c.length ≤ 1000 :=
  ⟨subscribeBatchesAux_flat l.length l le_rfl,
   subscribeBatchesAux_length l.length l le_rfl,
   subscribeBatchesAux_sizes l.length l⟩

/-- C3 witness: the amended theorem at a two-token universe. -/
theorem c3_contiguous_batches_witness :
    (subscribeBatches ["a", "b"]).flatten = ["a", "b"] ∧
    (subscribeBatches ["a", "b"]).length = (2 + 999) / 1000 ∧
    (["a", "b"] : List String).length ≤ 1000 := by
  have h := c3_contiguous_batches_unbounded_count ["a", "b"]
  exact ⟨h.1, h.2.1, h.2.2 ["a", "b"] (by simp [subscribeBatches, subscribeBatchesAux])⟩

/-! ### Backoff lemmas (C4) -/

theorem runAttempts_replicate_false :
    ∀ (n : ℕ) (d : ℚ), d ≤ 60 →
      (runAttempts (List.replicate n false) d).1 =
        (List.range n).map (fun k => min (d * 2 ^ k) 60) := by
  intro n
  induction n with
  | zero => intro d _; simp [runAttempts]
  | succ n ih =>
      intro d hd
      rw [List.replicate_succ, List.range_succ_eq_map]
      simp only [runAttempts, List.map_cons, List.map_map]
      rw [if_neg (by simp)]
      refine List.cons_eq_cons.mpr ⟨?_, ?_⟩
      · rw [pow_zero, mul_one]
        exact (min_eq_left hd).symm
      · rw [ih (min (d * 2) 60) (min_le_right _ _)]
        apply List.map_congr_left
        intro k _
        show min (min (d * 2) 60 * 2 ^ k) 60 = min (d * 2 ^ (k + 1)) 60
        have h2k : (1 : ℚ) ≤ 2 ^ k := by
          simpa using pow_le_pow_right₀ (by norm_num : (1 : ℚ) ≤ 2) (Nat.zero_le k)
        have hmin : min ((60 : ℚ) * 2 ^ k) 60 = 60 := min_eq_right (by nlinarith)
        rw [min_mul_of_nonneg _ _ (by positivity), min_assoc, hmin, pow_succ]
        ring_nf

/-- C4, counterexample: six consecutive connection failures sleep
`1, 2, 4, 8, 16, 32` — the sixth delay is 32, not the claimed capped 30,
because `_max_reconnect_delay` is 60. -/
theorem c4_sixth_delay_is_32_not_30 :
    (runAttempts (List.replicate 6 false) 1).1 = [1, 2, 4, 8, 16, 32] ∧
    (runAttempts (List.replicate 6 false) 1).1 ≠ [1, 2, 4, 8, 16, 30] := by
  have h : (runAttempts (List.replicate 6 false) 1).1 = [1, 2, 4, 8, 16, 32] := by
    with_unfolding_all rfl
  refine ⟨h, ?_⟩
  rw [h]
  intro heq
  have h5 := congrArg (fun l : List ℚ => l[5]?) heq
  simp at h5

/-- C4 (amended): the reconnect delay starts at 1, doubles after each
consecutive failure and is capped at 60 (the n-th delay slept is
`min(2^(n-1), 60)`); it resets to 1 immediately after a successful
connect; six consecutive failures sleep `1, 2, 4, 8, 16, 32`, and the cap
first binds at the seventh delay, 60 (not 64). -/
theorem c4_backoff_doubles_capped_at_60 :
    (∀ n : ℕ, (runAttempts (List.replicate n false) 1).1 =
        (List.range n).map (fun k => min ((2 : ℚ) ^ k) 60)) ∧
    (∀ (rest : List Bool) (d : ℚ),
        ((runAttempts (true :: rest) d).1).head? = some 1) ∧
    (runAttempts (List.replicate 7 false) 1).1 = [1, 2, 4, 8, 16, 32, 60] := by
  refine ⟨?_, ?_, ?_⟩
  · intro n
    have h := runAttempts_replicate_false n 1 (by norm_num)
    simpa [one_mul] using h
  · intro rest d
    simp [runAttempts]
  · with_unfolding_all rfl

/-! ### Book-snapshot lemmas (C5) -/

theorem except_bind_ok {ε α β : Type} (e : Except ε α) (f : α → Except ε β)
    (b : β) : (e >>= f) = .ok b ↔ ∃ a, e = .ok a ∧ f a = .ok b := by
  cases e <;> simp [Bind.bind, Except.bind]

theorem handle_book_three_levels (e : PyVal) (now : ℚ) (r : PyVal × List PyVal)
    (h : handle_book e now = .ok r) : r.2.length = 3 := by
  simp only [handle_book] at h
  cases h1 : pyIter (e.getD "bids" (.plist [])) with
  | error err => rw [h1] at h; simp [Bind.bind, Except.bind] at h
  | ok rawBids =>
  rw [h1] at h
  simp only [Bind.bind, Except.bind] at h
  cases h2 : pyIter (e.getD "asks" (.plist [])) with
  | error err => rw [h2] at h; simp at h
  | ok rawAsks =>
  rw [h2] at h
  simp only at h
  cases h3 : parseBookSide rawBids with
  | error err => rw [h3] at h; simp at h
  | ok pb =>
  rw [h3] at h
  simp only at h
  cases h4 : parseBookSide rawAsks with
  | error err => rw [h4] at h; simp at h
  | ok pa =>
  rw [h4] at h
  simp only [Pure.pure, Except.pure, Except.ok.injEq] at h
  rw [← h]
  simp

def c5L1 : PyVal := c5Level 1 (.pnum (3 / 5)) (.pnum 5)
def c5L2 : PyVal := c5Level 2 (.pnum (11 / 20)) (.pnum 3)
def c5L3 : PyVal := c5Level 3 .none .none

/-- C5, counterexample: the spec's book frame with two bids and no asks
yields THREE BookLevel records, not two — `_handle_book` always emits
ranks 1–3, so rank 3 comes out with all four price/size fields null — and
`_on_book` buffers all three, the fully empty one included. -/
theorem c5_empty_level_emitted_and_buffered :
    listenOutputs c5Frame 0 = [Out.book c5Bbo [c5L1, c5L2, c5L3]] ∧
    allNull c5L3 = true ∧
    (on_book {} {} [c5L1, c5L2, c5L3]).2.orderbook_levels_buffer =
      [c5L1, c5L2, c5L3] ∧
    [c5L1, c5L2, c5L3].length ≠ 2 := by
  refine ⟨?_, rfl, ?_, by decide⟩ <;> with_unfolding_all rfl

/-- C5 (amended): every successfully handled book snapshot yields exactly
three BookLevel records (ranks 1–3), whether or not a side has data at a
rank; the spec's two-bid/no-ask frame therefore yields the two bid levels
plus a fully empty rank-3 record, all three of which are buffered; the
all-null record is only dropped at flush time, where the filter skips it
before the row build (`levelRow` returns no row for it). -/
theorem c5_three_levels_per_snapshot (e : PyVal) (now : ℚ)
    (r : PyVal × List PyVal) (h : handle_book e now = .ok r) :
    r.2.length = 3 ∧
    handle_event c5Frame 0 = .ok [Out.book c5Bbo [c5L1, c5L2, c5L3]] ∧
    allNull c5L3 = true ∧
    (on_book {} {} [c5L1, c5L2, c5L3]).2.orderbook_levels_buffer.length = 3 ∧
    levelRow c5L3 = .ok Option.none := by
  refine ⟨handle_book_three_levels e now r h, ?_, rfl, ?_, rfl⟩ <;>
    with_unfolding_all rfl

/-- C5 witness: the amended theorem at the spec's concrete frame. -/
theorem c5_three_levels_witness :
    ((c5Bbo, [c5L1, c5L2, c5L3]) : PyVal × List PyVal).2.length = 3 ∧
    handle_event c5Frame 0 = .ok [Out.book c5Bbo [c5L1, c5L2, c5L3]] ∧
    allNull c5L3 = true ∧
    (on_book {} {} [c5L1, c5L2, c5L3]).2.orderbook_levels_buffer.length = 3 ∧
    levelRow c5L3 = .ok Option.none :=
  c5_three_levels_per_snapshot c5Frame 0 (c5Bbo, [c5L1, c5L2, c5L3])
    (by with_unfolding_all rfl)

/-! ### Timestamp-handling theorems (C9) -/

/-- C9, counterexample: a trade event whose timestamp is a malformed
string (neither all digits nor ISO) raises `ValueError` inside
`_handle_trade`; `_listen` catches it, and the trade — indeed the whole
frame — is dropped, producing no record. -/
theorem c9_malformed_timestamp_drops_trade :
    handle_event (c9Event (.pstr "bad-ts")) 7 =
      .error "ValueError: Invalid isoformat string: bad-ts" ∧
    listenOutputs (.plist [c9Event (.pstr "bad-ts")]) 7 = [] := by
  refine ⟨?_, ?_⟩ <;> with_unfolding_all rfl

/-- C9 (amended): an epoch-milliseconds timestamp (non-zero number or
digit string) is parsed as `ms/1000`; a missing timestamp key, and a
timestamp of a non-string non-numeric type, fall back to the frame's local
receipt time; in all those shapes the Trade is produced — but a malformed
timestamp *string* raises and loses the frame (the counterexample). -/
theorem c9_timestamp_parse_and_fallback (m now : ℚ) (hm : m ≠ 0) :
    handle_trade (c9Event (.pnum m)) now = .ok (c9Trade (m / 1000)) ∧
    handle_trade (c9Event (.pstr "1700000000123")) now =
      .ok (c9Trade (1700000000123 / 1000)) ∧
    handle_trade c9EventNoTs now = .ok (c9Trade now) ∧
    handle_trade (c9Event (.plist [.pnum 1])) now = .ok (c9Trade now) := by
  refine ⟨?_, ?_, ?_, ?_⟩
  · have htr : truthy (.pnum m) = true := by simp [truthy, hm]
    have hOr : pyOr ((c9Event (.pnum m)).getN "timestamp")
        ((c9Event (.pnum m)).getN "ts") = PyVal.pnum m := by
      simp only [pyOr,
        show (c9Event (.pnum m)).getN "timestamp" = .pnum m from rfl, htr,
        if_true]
    simp only [handle_trade]
    rw [hOr, htr]
    with_unfolding_all rfl
  · with_unfolding_all rfl
  · with_unfolding_all rfl
  · with_unfolding_all rfl

/-- C9 witness: the amended theorem at timestamp 1700000000123 ms,
receipt time 7. -/
theorem c9_timestamp_witness :
    handle_trade (c9Event (.pnum 1700000000123)) 7 =
      .ok (c9Trade (1700000000123 / 1000)) ∧
    handle_trade (c9Event (.pstr "1700000000123")) 7 =
      .ok (c9Trade (1700000000123 / 1000)) ∧
    handle_trade c9EventNoTs 7 = .ok (c9Trade 7) ∧
    handle_trade (c9Event (.plist [.pnum 1])) 7 = .ok (c9Trade 7) :=
  c9_timestamp_parse_and_fallback 1700000000123 7 (by norm_num)

/-! ### Buffer-coordinator lemmas (C6, C7) -/

theorem mapM_ok_of_forall {α β : Type} (f : α → Except String β) :
    ∀ l : List α, (∀ x ∈ l, (f x).isOk = true) →
      ∃ ys, l.mapM f = .ok ys := by
  intro l
  induction l with
  | nil => exact fun _ => ⟨[], rfl⟩
  | cons x xs ih =>
      intro h
      have hx := h x (List.mem_cons_self x xs)
      cases hfx : f x with
      | error e => rw [hfx] at hx; simp [Except.isOk, Except.toBool] at hx
      | ok y =>
          obtain ⟨ys, hys⟩ := ih (fun t ht => h t (List.mem_cons_of_mem x ht))
          refine ⟨y :: ys, ?_⟩
          rw [List.mapM_cons, hfx, hys]
          rfl

theorem countAdds_cons_add (t : PyVal) (ops : List TradeOp) :
    countAdds (.add t :: ops) = countAdds ops + 1 := by
  simp [countAdds, List.filter]

theorem countAdds_cons_flush (ops : List TradeOp) :
    countAdds (.flush :: ops) = countAdds ops := by
  simp [countAdds, List.filter]

theorem runTradeOps_spec :
    ∀ (ops : List TradeOp) (s : WriterState) (acc : ℕ),
    (∀ t ∈ s.trade_buffer, (tradeRow t).isOk = true) →
    (∀ t, TradeOp.add t ∈ ops → (tradeRow t).isOk = true) →
    ∃ n s', runTradeOps ops s acc = .ok (n, s') ∧
      n + s'.trade_buffer.length = acc + s.trade_buffer.length + countAdds ops := by
  intro ops
  induction ops with
  | nil =>
      intro s acc _ _
      exact ⟨acc, s, rfl, by simp [countAdds]⟩
  | cons op rest ih =>
      intro s acc hbuf hops
      cases op with
      | add t =>
          have hbuf' : ∀ x ∈ (buffer_trade s t).trade_buffer, (tradeRow x).isOk = true := by
            intro x hx
            have hx' : x ∈ s.trade_buffer ∨ x = t := by
              simpa [buffer_trade] using hx
            rcases hx' with h | h
            · exact hbuf x h
            · rw [h]
              exact hops t (List.mem_cons_self _ _)
          obtain ⟨n, s', h1, h2⟩ := ih (buffer_trade s t) acc hbuf'
            (fun u hu => hops u (List.mem_cons_of_mem _ hu))
          refine ⟨n, s', h1, ?_⟩
          rw [countAdds_cons_add]
          simp only [buffer_trade, List.length_append, List.length_singleton] at h2
          omega
      | flush =>
          by_cases hemp : s.trade_buffer.isEmpty
          · have hs : s.trade_buffer = [] := List.isEmpty_iff.mp hemp
            have hfl : flush_trades true s = (.ok ⟨0, []⟩, s) := by
              simp [flush_trades, hemp]
            obtain ⟨n, s', h1, h2⟩ := ih s (acc + 0) hbuf
              (fun u hu => hops u (List.mem_cons_of_mem _ hu))
            refine ⟨n, s', ?_, ?_⟩
            · rw [runTradeOps, hfl]
              exact h1
            · rw [countAdds_cons_flush]
              omega
          · obtain ⟨ys, hys⟩ := mapM_ok_of_forall tradeRow s.trade_buffer hbuf
            have hfl : flush_trades true s =
                (.ok ⟨s.trade_buffer.length, ys⟩, { s with trade_buffer := [] }) := by
              simp only [flush_trades]
              rw [if_neg hemp, hys]
              simp
            obtain ⟨n, s', h1, h2⟩ := ih { s with trade_buffer := [] }
              (acc + s.trade_buffer.length) (by simp)
              (fun u hu => hops u (List.mem_cons_of_mem _ hu))
            refine ⟨n, s', ?_, ?_⟩
            · rw [runTradeOps, hfl]
              exact h1
            · rw [countAdds_cons_flush]
              simp only [List.length_nil] at h2
              omega

/-- C6: over any interleaving of adds and flushes of well-formed trade
records against a healthy sink, the flush return values sum to the number
of records added minus the records still buffered (so nothing is lost or
duplicated), and a flush of an empty buffer is a no-op returning zero. -/
theorem c6_flush_lossless (ops : List TradeOp)
    (hops : ∀ t, TradeOp.add t ∈ ops → (tradeRow t).isOk = true) :
    (∀ (b : Bool) (s : WriterState), s.trade_buffer = [] →
        flush_trades b s = (.ok ⟨0, []⟩, s)) ∧
    ∃ n s', runTradeOps ops {} 0 = .ok (n, s') ∧
      n + s'.trade_buffer.length = countAdds ops := by
  constructor
  · intro b s hs
    simp [flush_trades, hs]
  · obtain ⟨n, s', h1, h2⟩ := runTradeOps_spec ops {} 0 (by simp) hops
    exact ⟨n, s', h1, by simpa using h2⟩

/-- C6 witness: add, flush, add, add, flush, add — the flushes return
1 and 2, and one record stays buffered: 3 flushed + 1 buffered = 4 added. -/
theorem c6_flush_lossless_witness :
    flush_trades true ({} : WriterState) = (.ok ⟨0, []⟩, {}) ∧
    runTradeOps [.add wfTrade, .flush, .add wfTrade, .add wfTrade, .flush,
      .add wfTrade] {} 0 = .ok (3, { trade_buffer := [wfTrade] }) ∧
    3 + 1 = countAdds [.add wfTrade, .flush, .add wfTrade, .add wfTrade,
      .flush, .add wfTrade] := by
  have h := c6_flush_lossless
    [.add wfTrade, .flush, .add wfTrade, .add wfTrade, .flush, .add wfTrade]
    (by
      intro t ht
      have h : t = wfTrade := by simpa using ht
      rw [h]
      with_unfolding_all rfl)
  refine ⟨h.1 true {} rfl, ?_, by decide⟩
  with_unfolding_all rfl

/-- C7: when the sink write fails, `flush_trades` still returns 0 (the
exception is caught), nothing is written, the swapped-out batch is gone —
the buffer is left empty, not re-buffered — and a subsequent add lands in
the fresh buffer. -/
theorem c7_failed_sink_drops_batch_only (s : WriterState)
    (hwf : ∀ t ∈ s.trade_buffer, (tradeRow t).isOk = true)
    (hne : s.trade_buffer ≠ []) :
    flush_trades false s = (.ok ⟨0, []⟩, { s with trade_buffer := [] }) ∧
    ∀ t, (buffer_trade { s with trade_buffer := [] } t).trade_buffer = [t] := by
  obtain ⟨ys, hys⟩ := mapM_ok_of_forall tradeRow s.trade_buffer hwf
  have hemp : ¬s.trade_buffer.isEmpty = true := by
    simpa [List.isEmpty_iff] using hne
  constructor
  · simp only [flush_trades]
    rw [if_neg hemp, hys]
    simp
  · intro t
    simp [buffer_trade]

/-- C7 witness: a one-record buffer flushed against a failing sink, then a
fresh add. -/
theorem c7_failed_sink_witness :
    flush_trades false { trade_buffer := [wfTrade] } = (.ok ⟨0, []⟩, {}) ∧
    (buffer_trade {} c2Trade).trade_buffer = [c2Trade] := by
  have h := c7_failed_sink_drops_batch_only { trade_buffer := [wfTrade] }
    (by
      intro t ht
      rw [List.mem_singleton.mp ht]
      with_unfolding_all rfl)
    (by simp)
  exact ⟨h.1, h.2 c2Trade⟩

/-! ### Resolution-table lemmas (C8) -/

/-- First-hit choice between two lookups (how a merged table answers). -/
def optOr {α : Type} : Option α → Option α → Option α
  | some v, _ => some v
  | Option.none, b => b

theorem optOr_none_right {α : Type} (a : Option α) : optOr a Option.none = a := by
  cases a <;> rfl

theorem optOr_assoc {α : Type} (a b c : Option α) :
    optOr (optOr a b) c = optOr a (optOr b c) := by
  cases a <;> rfl

theorem lookup_dictSet {α : Type} (d : List (String × α)) (k k' : String) (v : α) :
    (dictSet d k v).lookup k' = if k' = k then some v else d.lookup k' := by
  induction d with
  | nil =>
      by_cases hk : k' = k <;>
        simp [dictSet, List.lookup, hk, beq_eq_false_iff_ne.mpr]
  | cons a rest ih =>
      obtain ⟨ak, av⟩ := a
      by_cases hak : ak = k
      · subst hak
        by_cases hk : k' = ak <;>
          simp [dictSet, List.lookup, hk, beq_eq_false_iff_ne.mpr]
      · by_cases hk' : k' = ak
        · have hkk : k' ≠ k := by rw [hk']; exact hak
          simp [dictSet, List.lookup, hak, hk', hkk,
            beq_eq_false_iff_ne.mpr hkk]
        · simp [dictSet, List.lookup, hak, hk', ih,
            beq_eq_false_iff_ne.mpr hk']

theorem lookup_foldl_dictSet (ws : List (String × String)) :
    ∀ (d0 : List (String × String)) (k : String),
      ((ws.foldl (fun d p => dictSet d p.1 p.2) d0).lookup k) =
        optOr ((ws.foldl (fun d p => dictSet d p.1 p.2) []).lookup k)
          (d0.lookup k) := by
  induction ws with
  | nil => intro d0 k; rfl
  | cons p ws ih =>
      intro d0 k
      simp only [List.foldl_cons]
      rw [ih (dictSet d0 p.1 p.2) k, ih (dictSet [] p.1 p.2) k,
        lookup_dictSet, lookup_dictSet]
      by_cases hk : k = p.1
      · rw [if_pos hk, if_pos hk, optOr_assoc]
        rfl
      · rw [if_neg hk, if_neg hk]
        simp only [List.lookup_nil]
        rw [optOr_none_right]

/-- The token→condition writes a sync performs, in order. -/
def tokenWrites (ms : List Market) : List (String × String) :=
  (ms.map fun m => m.clob_token_ids.map fun t => (t, m.condition_id)).flatten

theorem sync_markets_token_table (cats : List (String × String)) :
    ∀ (ms : List Market) (ok : Bool) (ist : IngestionState) (w : WriterState),
      (sync_markets cats ms ok ist w).1.token_to_market =
        (tokenWrites ms).foldl (fun d p => dictSet d p.1 p.2)
          ist.token_to_market := by
  intro ms
  induction ms with
  | nil => intro ok ist w; rfl
  | cons m ms ih =>
      intro ok ist w
      have hL : (sync_markets cats (m :: ms) ok ist w).1 =
          (sync_markets cats ms ok (syncMarketStep cats (ist, w) m).1
            (syncMarketStep cats (ist, w) m).2).1 := rfl
      rw [hL, ih]
      have hstep : (syncMarketStep cats (ist, w) m).1.token_to_market =
          (m.clob_token_ids.map fun t => (t, m.condition_id)).foldl
            (fun d p => dictSet d p.1 p.2) ist.token_to_market := by
        rw [List.foldl_map]
        rfl
      rw [hstep]
      simp only [tokenWrites, List.map_cons, List.flatten_cons,
        List.foldl_append]

/-- C8, counterexample: `_sync_markets` merges into `_token_to_market`
rather than rebuilding it — after a resync that fetched only market `mB`
(token `"b"`), the stale entry for token `"a"` from the previous sync is
still resolvable, whereas the table derived from the latest fetch alone
does not contain it. -/
theorem c8_stale_token_survives_resync :
    (sync_markets [] [mB] true istA {}).1.token_to_market.lookup "a" =
      some "m1" ∧
    (sync_markets [] [mB] true {} {}).1.token_to_market.lookup "a" =
      Option.none := ⟨rfl, rfl⟩

/-- C8 (amended): after a metadata sync the resolution table answers each
token from the mapping derived from that fetch when the fetch covers it,
and otherwise falls back to the pre-sync table — the table is merged, not
rebuilt wholesale, so entries for tokens absent from the latest fetch
survive; ingestion traffic (`_on_trade`/`_on_book` enrichment) never
mutates the ingestion state. -/
theorem c8_resolution_table_merged (cats : List (String × String))
    (ms : List Market) (ok : Bool) (ist : IngestionState) (w : WriterState)
    (tok : String) :
    (sync_markets cats ms ok ist w).1.token_to_market.lookup tok =
      optOr ((sync_markets cats ms ok {} {}).1.token_to_market.lookup tok)
        (ist.token_to_market.lookup tok) ∧
    (∀ it, (on_trade ist w it).1 = ist) ∧
    (∀ ls, (on_book ist w ls).1 = ist) := by
  refine ⟨?_, fun _ => rfl, fun _ => rfl⟩
  rw [sync_markets_token_table, sync_markets_token_table]
  exact lookup_foldl_dictSet (tokenWrites ms) ist.token_to_market tok

/-! ### Levels-flush counting lemmas (C10) -/

theorem levelRow_ok_isSome (l : PyVal) (r : Option (List PyVal))
    (h : levelRow l = .ok r) : r.isSome = !allNull l := by
  cases l with
  | pdict kvs =>
      simp only [levelRow] at h
      by_cases ha : allNull (.pdict kvs) = true
      · rw [if_pos ha] at h
        have hr : r = Option.none := by
          simpa [Pure.pure, Except.pure, eq_comm] using h
        rw [hr, ha]
        rfl
      · rw [if_neg ha] at h
        simp only [except_bind_ok] at h
        obtain ⟨a1, _, a2, _, a3, _, a4, _, a5, _, a6, _, hr⟩ := h
        have hr' : r = some [a1, a2, a3, a4, a5, a6,
            (PyVal.pdict kvs).getN "bid_px", (PyVal.pdict kvs).getN "bid_sz",
            (PyVal.pdict kvs).getN "ask_px", (PyVal.pdict kvs).getN "ask_sz",
            (PyVal.pdict kvs).getD "source" (.pstr "websocket")] := by
          simpa [Pure.pure, Except.pure, eq_comm] using hr
        have haf : allNull (PyVal.pdict kvs) = false := by simpa using ha
        rw [hr', haf]
        rfl
  | none => simp [levelRow] at h
  | pbool b => simp [levelRow] at h
  | pnum q => simp [levelRow] at h
  | pstr s => simp [levelRow] at h
  | plist xs => simp [levelRow] at h
  | pdatetime q => simp [levelRow] at h

theorem mapM_levelRow_filter :
    ∀ (ls : List PyVal) (rows : List (Option (List PyVal))),
      ls.mapM levelRow = .ok rows →
      rows.reduceOption.length = (ls.filter (fun l => !allNull l)).length := by
  intro ls
  induction ls with
  | nil =>
      intro rows h
      have h' : (Except.ok ([] : List (Option (List PyVal))) :
          Except String (List (Option (List PyVal)))) = .ok rows := h
      injection h' with h''
      subst h''
      rfl
  | cons l ls ih =>
      intro rows h
      rw [List.mapM_cons] at h
      simp only [except_bind_ok] at h
      obtain ⟨r, hr, rs, hrs, hpure⟩ := h
      have hrows : rows = r :: rs := by
        simpa [Pure.pure, Except.pure, eq_comm] using hpure
      subst hrows
      have hshape := levelRow_ok_isSome l r hr
      cases r with
      | none =>
          have ha : allNull l = true := by
            cases hAl : allNull l
            · rw [hAl] at hshape; simp at hshape
            · rfl
          have hf : (l :: ls).filter (fun x => !allNull x) =
              ls.filter (fun x => !allNull x) := by
            rw [List.filter_cons]
            simp [ha]
          rw [List.reduceOption_cons_of_none, hf]
          exact ih rs hrs
      | some row =>
          have ha : allNull l = false := by
            cases hAl : allNull l
            · rfl
            · rw [hAl] at hshape; simp at hshape
          have hf : (l :: ls).filter (fun x => !allNull x) =
              l :: ls.filter (fun x => !allNull x) := by
            rw [List.filter_cons]
            simp [ha]
          rw [List.reduceOption_cons_of_some, hf]
          simp only [List.length_cons]
          rw [ih rs hrs]

/-- C10: a successful orderbook-levels flush returns (and `_run_flusher`
adds to `levels_written`) the size of the drained buffer, while the rows
actually handed to the sink are only the non-all-null ones — so the
reported count includes the filtered-out records and can exceed what was
written. -/
theorem c10_flush_return_counts_filtered (s : WriterState) (o : FlushOutcome)
    (s' : WriterState)
    (h : flush_orderbook_levels true s = (.ok o, s')) :
    o.ret = s.orderbook_levels_buffer.length ∧
    o.sunk.length =
      (s.orderbook_levels_buffer.filter (fun l => !allNull l)).length ∧
    o.sunk.length ≤ o.ret := by
  simp only [flush_orderbook_levels] at h
  by_cases hemp : s.orderbook_levels_buffer.isEmpty = true
  · rw [if_pos hemp] at h
    have hs : s.orderbook_levels_buffer = [] := List.isEmpty_iff.mp hemp
    have ho : o = ⟨0, []⟩ := by
      have := congrArg Prod.fst h
      simpa [eq_comm] using this
    rw [ho, hs]
    exact ⟨rfl, rfl, le_rfl⟩
  · rw [if_neg hemp] at h
    cases hm : s.orderbook_levels_buffer.mapM levelRow with
    | error e =>
        rw [hm] at h
        exact absurd (congrArg Prod.fst h) (by simp)
    | ok rows =>
        rw [hm] at h
        have ho : o = ⟨s.orderbook_levels_buffer.length, rows.reduceOption⟩ := by
          have := congrArg Prod.fst h
          simpa [eq_comm] using this
        rw [ho]
        refine ⟨rfl, mapM_levelRow_filter _ rows hm, ?_⟩
        rw [mapM_levelRow_filter _ rows hm]
        exact List.length_filter_le _ _

/-- C10 witness: a buffer holding one full level and one all-null level —
the flush returns 2 but submits a single row. -/
theorem c10_flush_return_witness :
    (⟨2, [[PyVal.pdatetime 1, .pdatetime 2, .pstr "m", .pstr "c", .pstr "k",
        .pnum 1, .pnum (3 / 5), .pnum 5, .none, .none, .pstr "websocket"]]⟩ :
      FlushOutcome).ret =
      ({ orderbook_levels_buffer := [wfLevel, nullLevel] } :
        WriterState).orderbook_levels_buffer.length ∧
    ([[PyVal.pdatetime 1, .pdatetime 2, .pstr "m", .pstr "c", .pstr "k",
        .pnum 1, .pnum (3 / 5), .pnum 5, .none, .none,
        .pstr "websocket"]] : List (List PyVal)).length =
      (({ orderbook_levels_buffer := [wfLevel, nullLevel] } :
        WriterState).orderbook_levels_buffer.filter
          (fun l => !allNull l)).length ∧
    ([[PyVal.pdatetime 1, .pdatetime 2, .pstr "m", .pstr "c", .pstr "k",
        .pnum 1, .pnum (3 / 5), .pnum 5, .none, .none,
        .pstr "websocket"]] : List (List PyVal)).length ≤ 2 :=
  c10_flush_return_counts_filtered
    { orderbook_levels_buffer := [wfLevel, nullLevel] }
    ⟨2, [[PyVal.pdatetime 1, .pdatetime 2, .pstr "m", .pstr "c", .pstr "k",
        .pnum 1, .pnum (3 / 5), .pnum 5, .none, .none, .pstr "websocket"]]⟩
    {} (by with_unfolding_all rfl)

end PM
